import Mathlib

/-!
Shallow embedding of the tranche ledger and revenue-distribution engine of
the revora-qwik/ui repository, namely the two Solidity contracts
`src/packages/contracts/contracts/TrancheToken.sol` and
`src/packages/contracts/contracts/RevenueDistributor.sol`.

Modelling conventions:
* Addresses are natural numbers; `0` is the zero address (`address(0)`).
* `uint256` / `uint48` / `uint32` / `uint16` values are modelled as `Nat`.
  Solidity 0.8 checked arithmetic reverts on overflow; in the states reached
  by the claims no overflow occurs (e.g. the `uint16` bps accumulator in
  `createDistribution` is bounded by 30000 < 2^16 under the bounds enforced
  by `configureTranche`), so plain `Nat` arithmetic is faithful there.
* Fallible entry points return `Except Err _`; an `Except.error` result
  models a revert: no state change and no token transfer takes place
  (the EVM's all-or-nothing transaction semantics).
* The revert strings of the source are mapped to the error taxonomy of the
  specification: "Funding not active" / "Funding already complete" /
  "Funding goal already reached" / "Tranche not cancelled" /
  "Refunds not enabled" ↦ `InvalidState`; "Tranche already closed" ↦
  `AlreadyDone`; "Amount must be > 0" ↦ `ZeroAmount`; "Owner cannot invest"
  ↦ `OperatorNotAllowed`; "Investment too small" ↦ `BelowMinimum`;
  onlyOwner ↦ `Unauthorized`; ERC20 insufficient-balance ↦
  `InsufficientBalance`; "Transfers frozen - tranche closed" ↦
  `TransfersFrozen`; "Already claimed" ↦ `AlreadyClaimed`; "No refund pool"
  ↦ `NoPool`; "No tokens to refund" ↦ `NoBalance`; "No supply snapshot" ↦
  `NoSnapshot`; "Refund too small" ↦ `RefundTooSmall`; "Invalid
  distribution" ↦ `InvalidDistribution`; "Claim period ended" ↦
  `DeadlinePassed`; "Nothing to claim" ↦ `NothingToClaim`; "Claim period
  not ended" ↦ `ClaimPeriodNotEnded`; "No unclaimed funds" ↦
  `NoUnclaimedFunds`; "Tranche not configured" ↦ `NotConfigured`;
  zero-address and out-of-range argument checks ↦ `InvalidInput`.
* External ERC20 payment-token transfers (`safeTransferFrom` /
  `transfer`) are abstracted as always succeeding; the transferred amounts
  are returned as outputs so theorems can speak about what is paid out.
* The OpenZeppelin ERC20Votes checkpoint machinery is modelled by its
  current values: per-holder balances, per-holder chosen delegate
  (`0` = none) and per-delegate voting units.  Snapshot reads
  (`getPastVotes`, `getPastTotalSupply`) are supplied to the distributor
  functions as oracle arguments, matching the spec's snapshot oracle.
-/

/-- Error taxonomy; see the mapping from the source's revert strings above. -/
inductive Err
  | InvalidState
  | ZeroAmount
  | OperatorNotAllowed
  | BelowMinimum
  | Unauthorized
  | AlreadyDone
  | TransfersFrozen
  | InsufficientBalance
  | AlreadyClaimed
  | NoPool
  | NoBalance
  | NoSnapshot
  | RefundTooSmall
  | NotConfigured
  | InvalidInput
  | InvalidDistribution
  | DeadlinePassed
  | NothingToClaim
  | ClaimPeriodNotEnded
  | NoUnclaimedFunds
  deriving DecidableEq, Repr

/-- Pointwise update of a map keyed by addresses (storage mapping write). -/
def upd {α : Type} (f : Nat → α) (k : Nat) (v : α) : Nat → α :=
  fun x => if x = k then v else f x

/-- `TrancheToken.TrancheStatus`. -/
inductive TrancheStatus
  | Active
  | ClosedSuccess
  | ClosedCancelled
  deriving DecidableEq, Repr

/-- Storage of one `TrancheToken` contract, together with the ERC20 /
ERC20Votes state it inherits (balances, total supply, delegation and
voting units). -/
structure TrancheState where
  owner : Nat
  fundingGoal : Nat
  pricePerToken : Nat
  fundingActive : Bool
  fundingComplete : Bool
  totalRaised : Nat
  trancheStatus : TrancheStatus
  refundPool : Nat
  refundSnapshotSupply : Nat
  hasClaimedRefund : Nat → Bool
  totalRefundsClaimed : Nat
  balances : Nat → Nat
  totalSupply : Nat
  delegatee : Nat → Nat
  votes : Nat → Nat

/-- OpenZeppelin `Votes._moveDelegateVotes`: move `amount` voting units
from delegate `src` to delegate `dst`; the zero delegate is untracked. -/
def moveDelegateVotes (votes : Nat → Nat) (src dst amount : Nat) : Nat → Nat :=
  if src = dst ∨ amount = 0 then votes
  else
    let v1 := if src ≠ 0 then upd votes src (votes src - amount) else votes
    if dst ≠ 0 then upd v1 dst (v1 dst + amount) else v1

/-- `TrancheToken._update(from, to, amount)`: the single overridden token
mutation hook.  Blocks peer-to-peer transfers unless the tranche is
`Active`, performs the ERC20 balance/supply update, moves voting units
between the delegates of `fromAddr` and `toAddr` (ERC20Votes), and finally
auto-delegates the receiver to itself when it had no delegate yet. -/
def tokenUpdate (s : TrancheState) (fromAddr toAddr amount : Nat) :
    Except Err TrancheState :=
  if fromAddr ≠ 0 ∧ toAddr ≠ 0 ∧ s.trancheStatus ≠ TrancheStatus.Active then
    Except.error Err.TransfersFrozen
  else if fromAddr ≠ 0 ∧ s.balances fromAddr < amount then
    Except.error Err.InsufficientBalance
  else
    let s1 :=
      if fromAddr = 0 then { s with totalSupply := s.totalSupply + amount }
      else { s with balances := upd s.balances fromAddr (s.balances fromAddr - amount) }
    let s2 :=
      if toAddr = 0 then { s1 with totalSupply := s1.totalSupply - amount }
      else { s1 with balances := upd s1.balances toAddr (s1.balances toAddr + amount) }
    let s3 := { s2 with
      votes := moveDelegateVotes s2.votes (s2.delegatee fromAddr) (s2.delegatee toAddr) amount }
    let s4 :=
      if toAddr ≠ 0 ∧ s3.delegatee toAddr = 0 then
        { s3 with
          delegatee := upd s3.delegatee toAddr toAddr,
          votes := moveDelegateVotes s3.votes 0 toAddr (s3.balances toAddr) }
      else s3
    Except.ok s4

/-- `TrancheToken.invest(paymentAmount)`.  On success returns the new
state, the accepted payment amount actually debited from the investor
(sent to the treasury), and the number of ownership units minted. -/
def invest (s : TrancheState) (sender paymentAmount : Nat) :
    Except Err (TrancheState × Nat × Nat) :=
  if !s.fundingActive then Except.error Err.InvalidState
  else if s.fundingComplete then Except.error Err.InvalidState
  else if paymentAmount = 0 then Except.error Err.ZeroAmount
  else if sender = s.owner then Except.error Err.OperatorNotAllowed
  else
    let remainingToGoal := s.fundingGoal - s.totalRaised
    if remainingToGoal = 0 then Except.error Err.InvalidState
    else
      let actualInvestment :=
        if paymentAmount > remainingToGoal then remainingToGoal else paymentAmount
      let tokensToMint := actualInvestment * 10 ^ 18 / s.pricePerToken
      if tokensToMint = 0 then Except.error Err.BelowMinimum
      else
        match tokenUpdate s 0 sender tokensToMint with
        | Except.error e => Except.error e
        | Except.ok sm =>
          let s1 := { sm with totalRaised := sm.totalRaised + actualInvestment }
          let s2 :=
            if s1.totalRaised ≥ s1.fundingGoal then
              { s1 with fundingComplete := true, fundingActive := false }
            else s1
          Except.ok (s2, actualInvestment, tokensToMint)

/-- `TrancheToken.activateFunding()` (owner only). -/
def activateFunding (s : TrancheState) (sender : Nat) : Except Err TrancheState :=
  if sender ≠ s.owner then Except.error Err.Unauthorized
  else if s.fundingComplete then Except.error Err.InvalidState
  else Except.ok { s with fundingActive := true }

/-- `TrancheToken.pauseFunding()` (owner only). -/
def pauseFunding (s : TrancheState) (sender : Nat) : Except Err TrancheState :=
  if sender ≠ s.owner then Except.error Err.Unauthorized
  else Except.ok { s with fundingActive := false }

/-- `TrancheToken.completeFunding()` (owner only): manual completion
override, usable only before completion. -/
def completeFunding (s : TrancheState) (sender : Nat) : Except Err TrancheState :=
  if sender ≠ s.owner then Except.error Err.Unauthorized
  else if s.fundingComplete then Except.error Err.InvalidState
  else Except.ok { s with fundingComplete := true, fundingActive := false }

/-- `TrancheToken.markAsSuccessful()` (owner only): requires status
`Active` (else "Tranche already closed" ↦ `AlreadyDone`), then requires
`fundingComplete` (else "Funding not complete" ↦ `InvalidState`). -/
def markAsSuccessful (s : TrancheState) (sender : Nat) : Except Err TrancheState :=
  if sender ≠ s.owner then Except.error Err.Unauthorized
  else if s.trancheStatus ≠ TrancheStatus.Active then Except.error Err.AlreadyDone
  else if !s.fundingComplete then Except.error Err.InvalidState
  else Except.ok { s with trancheStatus := TrancheStatus.ClosedSuccess }

/-- `TrancheToken.markAsCancelled()` (owner only): requires status
`Active`; snapshots the current total supply into `refundSnapshotSupply`
and stops funding. -/
def markAsCancelled (s : TrancheState) (sender : Nat) : Except Err TrancheState :=
  if sender ≠ s.owner then Except.error Err.Unauthorized
  else if s.trancheStatus ≠ TrancheStatus.Active then Except.error Err.AlreadyDone
  else Except.ok { s with
    trancheStatus := TrancheStatus.ClosedCancelled,
    fundingActive := false,
    refundSnapshotSupply := s.totalSupply }

/-- `TrancheToken.depositRefundFunds(amount)` (owner only, cancelled only). -/
def depositRefundFunds (s : TrancheState) (sender amount : Nat) :
    Except Err TrancheState :=
  if sender ≠ s.owner then Except.error Err.Unauthorized
  else if s.trancheStatus ≠ TrancheStatus.ClosedCancelled then Except.error Err.InvalidState
  else if amount = 0 then Except.error Err.ZeroAmount
  else Except.ok { s with refundPool := s.refundPool + amount }

/-- `TrancheToken.claimRefund()`.  On success returns the new state and
the refund amount transferred to the caller.  Guard order follows the
source: cancelled status, not already claimed, nonempty pool, nonzero
balance, nonzero snapshot supply, refund rounds to nonzero; then the
claimed flag and counters are written, the caller's full balance is burnt
through `tokenUpdate`, and the refund is transferred. -/
def claimRefund (s : TrancheState) (sender : Nat) :
    Except Err (TrancheState × Nat) :=
  if s.trancheStatus ≠ TrancheStatus.ClosedCancelled then Except.error Err.InvalidState
  else if s.hasClaimedRefund sender then Except.error Err.AlreadyClaimed
  else if s.refundPool = 0 then Except.error Err.NoPool
  else
    let userBalance := s.balances sender
    if userBalance = 0 then Except.error Err.NoBalance
    else if s.refundSnapshotSupply = 0 then Except.error Err.NoSnapshot
    else
      let refundAmount := userBalance * s.refundPool / s.refundSnapshotSupply
      if refundAmount = 0 then Except.error Err.RefundTooSmall
      else
        let s1 := { s with
          hasClaimedRefund := upd s.hasClaimedRefund sender true,
          totalRefundsClaimed := s.totalRefundsClaimed + refundAmount }
        match tokenUpdate s1 sender 0 userBalance with
        | Except.error e => Except.error e
        | Except.ok s2 => Except.ok (s2, refundAmount)

/-- `TrancheToken.getRefundAmount(user)` (view). -/
def getRefundAmount (s : TrancheState) (user : Nat) : Nat :=
  if s.trancheStatus ≠ TrancheStatus.ClosedCancelled then 0
  else if s.hasClaimedRefund user then 0
  else if s.refundPool = 0 then 0
  else if s.refundSnapshotSupply = 0 then 0
  else if s.balances user = 0 then 0
  else s.balances user * s.refundPool / s.refundSnapshotSupply

/-- `TrancheToken.isRefundAvailable()` (view). -/
def isRefundAvailable (s : TrancheState) : Bool :=
  s.trancheStatus = TrancheStatus.ClosedCancelled ∧ s.refundPool > 0

/-- The `TrancheToken` constructor state (valid arguments assumed by the
reachability relation): funding active, status `Active`, all ledgers
empty. -/
def initTrancheState (goal price ownr : Nat) : TrancheState :=
  { owner := ownr
    fundingGoal := goal
    pricePerToken := price
    fundingActive := true
    fundingComplete := false
    totalRaised := 0
    trancheStatus := TrancheStatus.Active
    refundPool := 0
    refundSnapshotSupply := 0
    hasClaimedRefund := fun _ => false
    totalRefundsClaimed := 0
    balances := fun _ => 0
    totalSupply := 0
    delegatee := fun _ => 0
    votes := fun _ => 0 }

/-- One externally invokable operation on a `TrancheToken`. -/
inductive TrancheOp
  | investOp (sender amount : Nat)
  | activateOp (sender : Nat)
  | pauseOp (sender : Nat)
  | completeOp (sender : Nat)
  | markSuccessOp (sender : Nat)
  | markCancelOp (sender : Nat)
  | depositRefundOp (sender amount : Nat)
  | claimRefundOp (sender : Nat)
  | transferOp (fromAddr toAddr amount : Nat)

/-- Apply one operation; a reverting operation leaves the state unchanged
(all-or-nothing transaction semantics). -/
def stepState (s : TrancheState) (op : TrancheOp) : TrancheState :=
  match op with
  | TrancheOp.investOp a p =>
      match invest s a p with
      | Except.ok (s', _, _) => s'
      | Except.error _ => s
  | TrancheOp.activateOp a =>
      match activateFunding s a with
      | Except.ok s' => s'
      | Except.error _ => s
  | TrancheOp.pauseOp a =>
      match pauseFunding s a with
      | Except.ok s' => s'
      | Except.error _ => s
  | TrancheOp.completeOp a =>
      match completeFunding s a with
      | Except.ok s' => s'
      | Except.error _ => s
  | TrancheOp.markSuccessOp a =>
      match markAsSuccessful s a with
      | Except.ok s' => s'
      | Except.error _ => s
  | TrancheOp.markCancelOp a =>
      match markAsCancelled s a with
      | Except.ok s' => s'
      | Except.error _ => s
  | TrancheOp.depositRefundOp a p =>
      match depositRefundFunds s a p with
      | Except.ok s' => s'
      | Except.error _ => s
  | TrancheOp.claimRefundOp a =>
      match claimRefund s a with
      | Except.ok (s', _) => s'
      | Except.error _ => s
  | TrancheOp.transferOp f t p =>
      match tokenUpdate s f t p with
      | Except.ok s' => s'
      | Except.error _ => s

/-- Reachable states of one `TrancheToken`: a valid constructor call
followed by any sequence of public operations. -/
inductive TrancheReach : TrancheState → Prop
  | init (goal price ownr : Nat) (hg : 0 < goal) (hp : 0 < price) :
      TrancheReach (initTrancheState goal price ownr)
  | step (s : TrancheState) (op : TrancheOp) (h : TrancheReach s) :
      TrancheReach (stepState s op)

/-- A sequence of `invest` calls applied in order (reverting calls leave
the state unchanged). -/
def investTrace (s : TrancheState) (calls : List (Nat × Nat)) : TrancheState :=
  calls.foldl (fun st c =>
    match invest st c.1 c.2 with
    | Except.ok (s', _, _) => s'
    | Except.error _ => st) s

/-- `RevenueDistributor.TrancheConfig`. -/
structure TrancheConfig where
  revoraShareBps : Nat
  minInvestmentPeriodDays : Nat
  timeBasedBonusBps : Nat
  performanceThreshold : Nat
  performanceBonusBps : Nat
  claimPeriodDays : Nat
  isConfigured : Bool
  deriving DecidableEq, Repr

/-- The all-zero (unset) configuration: Solidity mapping default. -/
def emptyConfig : TrancheConfig :=
  { revoraShareBps := 0
    minInvestmentPeriodDays := 0
    timeBasedBonusBps := 0
    performanceThreshold := 0
    performanceBonusBps := 0
    claimPeriodDays := 0
    isConfigured := false }

/-- `RevenueDistributor.Distribution` record. -/
structure Distribution where
  trancheToken : Nat
  paymentToken : Nat
  totalAmount : Nat
  trancheAmount : Nat
  revoraAmount : Nat
  snapshotBlock : Nat
  timestamp : Nat
  claimDeadline : Nat
  trancheTotalSupply : Nat
  revoraTotalSupply : Nat
  totalClaimed : Nat
  deriving DecidableEq, Repr

/-- The all-zero distribution record: Solidity mapping default. -/
def emptyDistribution : Distribution :=
  { trancheToken := 0
    paymentToken := 0
    totalAmount := 0
    trancheAmount := 0
    revoraAmount := 0
    snapshotBlock := 0
    timestamp := 0
    claimDeadline := 0
    trancheTotalSupply := 0
    revoraTotalSupply := 0
    totalClaimed := 0 }

/-- Storage of the `RevenueDistributor` contract.  `revoraTokenSet` models
`address(revoraToken) != address(0)`. -/
structure RevDState where
  owner : Nat
  revoraTokenSet : Bool
  revoraTreasury : Nat
  distributionCount : Nat
  distributions : Nat → Distribution
  trancheConfigs : Nat → TrancheConfig
  hasClaimed : Nat → Nat → Bool
  authorizedConfigurers : Nat → Bool

/-- `RevenueDistributor.configureTranche(...)`: owner or authorized
configurer; validates the bps bounds and the claim period, then overwrites
the tranche's configuration with `isConfigured = true`. -/
def configureTranche (s : RevDState) (sender trancheToken : Nat)
    (revoraShareBps minInvestmentPeriodDays timeBasedBonusBps
     performanceThreshold performanceBonusBps claimPeriodDays : Nat) :
    Except Err RevDState :=
  if ¬ (sender = s.owner ∨ s.authorizedConfigurers sender) then
    Except.error Err.Unauthorized
  else if trancheToken = 0 then Except.error Err.InvalidInput
  else if revoraShareBps > 10000 then Except.error Err.InvalidInput
  else if timeBasedBonusBps > 10000 then Except.error Err.InvalidInput
  else if performanceBonusBps > 10000 then Except.error Err.InvalidInput
  else if claimPeriodDays = 0 then Except.error Err.InvalidInput
  else
    let newConfig : TrancheConfig :=
      { revoraShareBps := revoraShareBps
        minInvestmentPeriodDays := minInvestmentPeriodDays
        timeBasedBonusBps := timeBasedBonusBps
        performanceThreshold := performanceThreshold
        performanceBonusBps := performanceBonusBps
        claimPeriodDays := claimPeriodDays
        isConfigured := true }
    Except.ok { s with trancheConfigs := upd s.trancheConfigs trancheToken newConfig }

/-- The effective Revora share computed by `createDistribution`
(lines 216-240 of the source): start from `revoraShareBps`; add the time
bonus when both time parameters are set and
`(blockNumber - investmentStartBlock) * 12 / 86400` days (12-second block
assumption) reach `minInvestmentPeriodDays`; add the performance bonus
when both performance parameters are set and
`profitAmount ≥ performanceThreshold`; finally cap at 10000. -/
def effectiveRevoraShareBps (config : TrancheConfig)
    (blockNumber investmentStartBlock profitAmount : Nat) : Nat :=
  let base := config.revoraShareBps
  let withTime :=
    if config.minInvestmentPeriodDays > 0 ∧ config.timeBasedBonusBps > 0 ∧
        (blockNumber - investmentStartBlock) * 12 / 86400 ≥ config.minInvestmentPeriodDays
    then base + config.timeBasedBonusBps
    else base
  let withPerf :=
    if config.performanceThreshold > 0 ∧ config.performanceBonusBps > 0 ∧
        profitAmount ≥ config.performanceThreshold
    then withTime + config.performanceBonusBps
    else withTime
  if withPerf > 10000 then 10000 else withPerf

/-- `RevenueDistributor.createDistribution(...)` (owner only).  The
execution environment enters as `blockNumber` / `timestampNow`, and the
snapshot oracle reads `getPastTotalSupply(block.number - 1)` on the
tranche token and, when relevant, on the Revora token enter as
`pastTrancheSupply` / `pastRevoraSupply`.  On success returns the new
state, the new distribution id, and the amount forwarded immediately to
the Revora treasury (nonzero only when no Revora token is set). -/
def createDistribution (s : RevDState) (sender trancheToken paymentToken
    totalAmount profitAmount investmentStartBlock
    blockNumber timestampNow pastTrancheSupply pastRevoraSupply : Nat) :
    Except Err (RevDState × Nat × Nat) :=
  if sender ≠ s.owner then Except.error Err.Unauthorized
  else if trancheToken = 0 then Except.error Err.InvalidInput
  else if paymentToken = 0 then Except.error Err.InvalidInput
  else if totalAmount = 0 then Except.error Err.ZeroAmount
  else
    let config := s.trancheConfigs trancheToken
    if ¬ config.isConfigured then Except.error Err.NotConfigured
    else
      let effBps := effectiveRevoraShareBps config blockNumber investmentStartBlock profitAmount
      let revoraAmount := totalAmount * effBps / 10000
      let trancheAmount := totalAmount - revoraAmount
      let snapshotBlock := blockNumber - 1
      let trancheTotalSupply := pastTrancheSupply
      let revoraTotalSupply :=
        if s.revoraTokenSet ∧ revoraAmount > 0 then pastRevoraSupply else 0
      let claimDeadline := timestampNow + config.claimPeriodDays * 86400
      let treasuryPayout := if ¬ s.revoraTokenSet ∧ revoraAmount > 0 then revoraAmount else 0
      let distributionId := s.distributionCount
      let dist : Distribution :=
        { trancheToken := trancheToken
          paymentToken := paymentToken
          totalAmount := totalAmount
          trancheAmount := trancheAmount
          revoraAmount := revoraAmount
          snapshotBlock := snapshotBlock
          timestamp := timestampNow
          claimDeadline := claimDeadline
          trancheTotalSupply := trancheTotalSupply
          revoraTotalSupply := revoraTotalSupply
          totalClaimed := 0 }
      Except.ok
        ({ s with
            distributionCount := s.distributionCount + 1
            distributions := upd s.distributions distributionId dist },
         distributionId, treasuryPayout)

/-- `RevenueDistributor._calculateClaimable(distributionId, user)`.  The
snapshot oracle reads `getPastVotes(user, dist.snapshotBlock)` on the
tranche token and the Revora token enter as `userTrancheBalance` /
`userRevoraBalance`. -/
def calculateClaimable (revoraTokenSet : Bool) (dist : Distribution)
    (userTrancheBalance userRevoraBalance : Nat) : Nat :=
  let trancheShare :=
    if dist.trancheAmount > 0 ∧ dist.trancheTotalSupply > 0 ∧ userTrancheBalance > 0
    then dist.trancheAmount * userTrancheBalance / dist.trancheTotalSupply
    else 0
  let revoraShare :=
    if revoraTokenSet ∧ dist.revoraAmount > 0 ∧ dist.revoraTotalSupply > 0 ∧
        userRevoraBalance > 0
    then dist.revoraAmount * userRevoraBalance / dist.revoraTotalSupply
    else 0
  trancheShare + revoraShare

/-- `RevenueDistributor.getClaimableAmount(distributionId, user)` (view):
zero when the id is unknown, the user already claimed, or the deadline has
passed; otherwise `_calculateClaimable`. -/
def getClaimableAmount (s : RevDState) (distributionId user timestampNow
    userTrancheBalance userRevoraBalance : Nat) : Nat :=
  if distributionId ≥ s.distributionCount then 0
  else if s.hasClaimed distributionId user then 0
  else if timestampNow > (s.distributions distributionId).claimDeadline then 0
  else calculateClaimable s.revoraTokenSet (s.distributions distributionId)
    userTrancheBalance userRevoraBalance

/-- One storage write or external transfer performed by `claim`, in
program order. -/
inductive ClaimAction
  | markClaimed (distributionId user : Nat)
  | addTotalClaimed (distributionId amount : Nat)
  | payout (paymentToken user amount : Nat)
  deriving DecidableEq, Repr

/-- `RevenueDistributor.claim(distributionId)`.  On success returns the
new state, the claimed amount, and the ordered list of effects the body
performs (claimed flag write, `totalClaimed` increment, then the external
payment-token transfer — the source's statement order, lines 374-384). -/
def claim (s : RevDState) (sender distributionId timestampNow
    userTrancheBalance userRevoraBalance : Nat) :
    Except Err (RevDState × Nat × List ClaimAction) :=
  if distributionId ≥ s.distributionCount then Except.error Err.InvalidDistribution
  else if s.hasClaimed distributionId sender then Except.error Err.AlreadyClaimed
  else if timestampNow > (s.distributions distributionId).claimDeadline then
    Except.error Err.DeadlinePassed
  else
    let dist := s.distributions distributionId
    let claimable := calculateClaimable s.revoraTokenSet dist
      userTrancheBalance userRevoraBalance
    if claimable = 0 then Except.error Err.NothingToClaim
    else
      let newDist := { dist with totalClaimed := dist.totalClaimed + claimable }
      Except.ok
        ({ s with
            hasClaimed := fun d u =>
              if d = distributionId ∧ u = sender then true else s.hasClaimed d u
            distributions := upd s.distributions distributionId newDist },
         claimable,
         [ClaimAction.markClaimed distributionId sender,
          ClaimAction.addTotalClaimed distributionId claimable,
          ClaimAction.payout dist.paymentToken sender claimable])

/-- `claim` with revert-as-no-op semantics: the state after attempting a
claim (a revert leaves the state unchanged and transfers nothing). -/
def claimRun (s : RevDState) (sender distributionId timestampNow
    userTrancheBalance userRevoraBalance : Nat) : RevDState :=
  match claim s sender distributionId timestampNow userTrancheBalance userRevoraBalance with
  | Except.ok (s', _, _) => s'
  | Except.error _ => s

/-- The external transfers performed by a `claim` attempt: the single
payout on success, none on revert. -/
def claimTransfers (s : RevDState) (sender distributionId timestampNow
    userTrancheBalance userRevoraBalance : Nat) : List (Nat × Nat) :=
  match claim s sender distributionId timestampNow userTrancheBalance userRevoraBalance with
  | Except.ok (_, amount, _) => [(sender, amount)]
  | Except.error _ => []

/-- `RevenueDistributor.withdrawUnclaimedFunds(distributionId)` (owner
only, after the claim deadline).  On success returns the new state and
the unclaimed amount transferred to the Revora treasury. -/
def withdrawUnclaimedFunds (s : RevDState) (sender distributionId timestampNow : Nat) :
    Except Err (RevDState × Nat) :=
  if sender ≠ s.owner then Except.error Err.Unauthorized
  else if distributionId ≥ s.distributionCount then Except.error Err.InvalidDistribution
  else
    let dist := s.distributions distributionId
    if timestampNow ≤ dist.claimDeadline then Except.error Err.ClaimPeriodNotEnded
    else
      let unclaimed := dist.totalAmount - dist.totalClaimed
      if unclaimed = 0 then Except.error Err.NoUnclaimedFunds
      else
        let closedDist := { dist with totalClaimed := dist.totalAmount }
        Except.ok
          ({ s with distributions := upd s.distributions distributionId closedDist },
           unclaimed)

/-! ### Arithmetic helper lemmas -/

/-- Each truncated proportional share is at most the exact bound
`T * b / S` (also when the source's guards short-circuit to zero). -/
theorem calculateClaimable_le (revoraTokenSet : Bool) (dist : Distribution)
    (b1 b2 : Nat) :
    calculateClaimable revoraTokenSet dist b1 b2 ≤
      dist.trancheAmount * b1 / dist.trancheTotalSupply +
        dist.revoraAmount * b2 / dist.revoraTotalSupply := by
  unfold calculateClaimable
  dsimp only
  apply Nat.add_le_add
  · split
    · exact Nat.le_refl _
    · exact Nat.zero_le _
  · split
    · exact Nat.le_refl _
    · exact Nat.zero_le _

/-- `getClaimableAmount` never exceeds the raw `_calculateClaimable`
value: the extra guards only replace it by zero. -/
theorem getClaimableAmount_le_calculate (s : RevDState)
    (distributionId user timestampNow b1 b2 : Nat) :
    getClaimableAmount s distributionId user timestampNow b1 b2 ≤
      calculateClaimable s.revoraTokenSet (s.distributions distributionId) b1 b2 := by
  unfold getClaimableAmount
  split
  · exact Nat.zero_le _
  · split
    · exact Nat.zero_le _
    · split
      · exact Nat.zero_le _
      · exact Nat.le_refl _

/-- Sum of truncated shares is at most the truncated share of the sum. -/
theorem sum_mul_div_le (T S : Nat) (xs : List Nat) :
    (xs.map fun b => T * b / S).sum ≤ T * xs.sum / S := by
  induction xs with
  | nil => simp
  | cons x rest ih =>
    simp only [List.map_cons, List.sum_cons]
    calc T * x / S + (rest.map fun b => T * b / S).sum
        ≤ T * x / S + T * rest.sum / S := Nat.add_le_add_left ih _
      _ ≤ (T * x + T * rest.sum) / S := Nat.add_div_le_add_div _ _ _
      _ = T * (x + rest.sum) / S := by rw [Nat.mul_add]

/-- A truncated pro-rata share of at most the whole supply never exceeds
the amount being shared. -/
theorem mul_div_supply_le (T S tot : Nat) (h : tot ≤ S) : T * tot / S ≤ T := by
  rcases Nat.eq_zero_or_pos S with hS | hS
  · subst hS
    simp [Nat.div_zero]
  · calc T * tot / S ≤ T * S / S :=
        Nat.div_le_div_right (Nat.mul_le_mul_left T h)
    _ = T := Nat.mul_div_cancel T hS

/-! ### C1 -/

/-- C1: For every distribution and every set of holders whose snapshot
balances sum to at most the recorded snapshot supplies (on the tranche
ledger and on the secondary ledger), the sum over all holders of
`getClaimableAmount` — each share being `trancheAmount * balance /
trancheSupplyAtSnapshot` truncated, plus the analogous secondary share —
is at most `trancheAmount + secondaryAmount`: proportional-share rounding
never over-pays. -/
theorem c1_sum_claimable_le (s : RevDState) (distributionId timestampNow : Nat)
    (holders : List (Nat × Nat × Nat))
    (h1 : (holders.map fun h => h.2.1).sum ≤
      (s.distributions distributionId).trancheTotalSupply)
    (h2 : (holders.map fun h => h.2.2).sum ≤
      (s.distributions distributionId).revoraTotalSupply) :
    (holders.map fun h =>
        getClaimableAmount s distributionId h.1 timestampNow h.2.1 h.2.2).sum ≤
      (s.distributions distributionId).trancheAmount +
        (s.distributions distributionId).revoraAmount := by
  set dist := s.distributions distributionId with hdist
  calc (holders.map fun h =>
          getClaimableAmount s distributionId h.1 timestampNow h.2.1 h.2.2).sum
      ≤ (holders.map fun h =>
          dist.trancheAmount * h.2.1 / dist.trancheTotalSupply +
            dist.revoraAmount * h.2.2 / dist.revoraTotalSupply).sum := by
        apply List.sum_le_sum
        intro h _
        exact le_trans
          (getClaimableAmount_le_calculate s distributionId h.1 timestampNow h.2.1 h.2.2)
          (calculateClaimable_le s.revoraTokenSet dist h.2.1 h.2.2)
    _ = (holders.map fun h => dist.trancheAmount * h.2.1 / dist.trancheTotalSupply).sum +
          (holders.map fun h => dist.revoraAmount * h.2.2 / dist.revoraTotalSupply).sum :=
        List.sum_map_add
    _ ≤ dist.trancheAmount + dist.revoraAmount := by
        apply Nat.add_le_add
        · calc (holders.map fun h =>
                dist.trancheAmount * h.2.1 / dist.trancheTotalSupply).sum
              = ((holders.map fun h => h.2.1).map fun b =>
                  dist.trancheAmount * b / dist.trancheTotalSupply).sum := by
                rw [List.map_map]
                rfl
            _ ≤ dist.trancheAmount * (holders.map fun h => h.2.1).sum /
                  dist.trancheTotalSupply := sum_mul_div_le _ _ _
            _ ≤ dist.trancheAmount := mul_div_supply_le _ _ _ h1
        · calc (holders.map fun h =>
                dist.revoraAmount * h.2.2 / dist.revoraTotalSupply).sum
              = ((holders.map fun h => h.2.2).map fun b =>
                  dist.revoraAmount * b / dist.revoraTotalSupply).sum := by
                rw [List.map_map]
                rfl
            _ ≤ dist.revoraAmount * (holders.map fun h => h.2.2).sum /
                  dist.revoraTotalSupply := sum_mul_div_le _ _ _
            _ ≤ dist.revoraAmount := mul_div_supply_le _ _ _ h2

/-- A concrete distribution used to instantiate C1: 100 paid in, split
90 / 10, tranche snapshot supply 100, no secondary ledger. -/
def c1Dist : Distribution :=
  { emptyDistribution with
    totalAmount := 100
    trancheAmount := 90
    revoraAmount := 10
    claimDeadline := 1000
    trancheTotalSupply := 100 }

/-- A concrete `RevenueDistributor` state holding `c1Dist` as
distribution 0. -/
def c1State : RevDState :=
  { owner := 1
    revoraTokenSet := false
    revoraTreasury := 2
    distributionCount := 1
    distributions := fun _ => c1Dist
    trancheConfigs := fun _ => emptyConfig
    hasClaimed := fun _ _ => false
    authorizedConfigurers := fun _ => false }

/-- Witness for C1 at a concrete input: holders 5 and 6 with snapshot
balances 60 and 40 out of supply 100. -/
theorem c1_sum_claimable_le_witness :
    (([(5, 60, 0), (6, 40, 0)] : List (Nat × Nat × Nat)).map
        fun h => h.2.1).sum ≤ (c1State.distributions 0).trancheTotalSupply ∧
    (([(5, 60, 0), (6, 40, 0)] : List (Nat × Nat × Nat)).map
        fun h => h.2.2).sum ≤ (c1State.distributions 0).revoraTotalSupply ∧
    (([(5, 60, 0), (6, 40, 0)] : List (Nat × Nat × Nat)).map fun h =>
        getClaimableAmount c1State 0 h.1 10 h.2.1 h.2.2).sum ≤
      (c1State.distributions 0).trancheAmount + (c1State.distributions 0).revoraAmount :=
  ⟨by decide, by decide,
    c1_sum_claimable_le c1State 0 10 [(5, 60, 0), (6, 40, 0)] (by decide) (by decide)⟩

/-! ### C2 -/

/-- The effective share computation, written in the additive form of the
spec: base share plus conditional time bonus plus conditional performance
bonus, clamped at 10000 bps. -/
theorem effectiveRevoraShareBps_eq (config : TrancheConfig)
    (blockNumber investmentStartBlock profitAmount : Nat) :
    effectiveRevoraShareBps config blockNumber investmentStartBlock profitAmount =
      min (config.revoraShareBps +
        (if config.minInvestmentPeriodDays > 0 ∧ config.timeBasedBonusBps > 0 ∧
            (blockNumber - investmentStartBlock) * 12 / 86400 ≥
              config.minInvestmentPeriodDays
         then config.timeBasedBonusBps else 0) +
        (if config.performanceThreshold > 0 ∧ config.performanceBonusBps > 0 ∧
            profitAmount ≥ config.performanceThreshold
         then config.performanceBonusBps else 0)) 10000 := by
  simp only [effectiveRevoraShareBps]
  split_ifs <;> omega

/-- The clamp: the effective share never exceeds 10000 bps. -/
theorem effectiveRevoraShareBps_le (config : TrancheConfig)
    (blockNumber investmentStartBlock profitAmount : Nat) :
    effectiveRevoraShareBps config blockNumber investmentStartBlock profitAmount ≤ 10000 := by
  simp only [effectiveRevoraShareBps]
  split_ifs <;> omega

/-- C2: Every `createDistribution` call by the owner with
`totalAmount > 0` on a configured tranche succeeds, and the recorded
split satisfies: the effective share is `revoraShareBps`, plus
`timeBasedBonusBps` when both time parameters are set and the elapsed
period reaches `minInvestmentPeriodDays`, plus `performanceBonusBps` when
both performance parameters are set and `profitAmount` reaches the
threshold, clamped at 10000 bps; `secondaryAmount = totalAmount *
effectiveBps / 10000` with truncation and `trancheAmount = totalAmount -
secondaryAmount`, so `trancheAmount + secondaryAmount = totalAmount`
exactly. -/
theorem c2_createDistribution_split (s : RevDState)
    (sender trancheToken paymentToken totalAmount profitAmount
     investmentStartBlock blockNumber timestampNow
     pastTrancheSupply pastRevoraSupply : Nat)
    (hsender : sender = s.owner)
    (htoken : trancheToken ≠ 0)
    (hpay : paymentToken ≠ 0)
    (hamt : 0 < totalAmount)
    (hcfg : (s.trancheConfigs trancheToken).isConfigured = true) :
    ∃ s' distributionId treasuryPayout,
      createDistribution s sender trancheToken paymentToken totalAmount
          profitAmount investmentStartBlock blockNumber timestampNow
          pastTrancheSupply pastRevoraSupply
        = Except.ok (s', distributionId, treasuryPayout) ∧
      (let config := s.trancheConfigs trancheToken
       let effBps := effectiveRevoraShareBps config blockNumber
         investmentStartBlock profitAmount
       let dist := s'.distributions distributionId
       effBps = min (config.revoraShareBps +
           (if config.minInvestmentPeriodDays > 0 ∧ config.timeBasedBonusBps > 0 ∧
               (blockNumber - investmentStartBlock) * 12 / 86400 ≥
                 config.minInvestmentPeriodDays
            then config.timeBasedBonusBps else 0) +
           (if config.performanceThreshold > 0 ∧ config.performanceBonusBps > 0 ∧
               profitAmount ≥ config.performanceThreshold
            then config.performanceBonusBps else 0)) 10000 ∧
       effBps ≤ 10000 ∧
       dist.revoraAmount = totalAmount * effBps / 10000 ∧
       dist.trancheAmount = totalAmount - dist.revoraAmount ∧
       dist.trancheAmount + dist.revoraAmount = totalAmount ∧
       dist.totalAmount = totalAmount) := by
  have hta : ¬ totalAmount = 0 := Nat.pos_iff_ne_zero.mp hamt
  unfold createDistribution
  rw [if_neg (by simp [hsender]), if_neg htoken, if_neg hpay, if_neg hta,
    if_neg (by simp [hcfg])]
  refine ⟨_, _, _, rfl, ?_⟩
  intro config effBps dist
  unfold dist
  simp only [upd]
  have hle : totalAmount * effBps / 10000 ≤ totalAmount := by
    have hcap := effectiveRevoraShareBps_le config blockNumber investmentStartBlock profitAmount
    calc totalAmount * effBps / 10000
        ≤ totalAmount * 10000 / 10000 :=
          Nat.div_le_div_right (Nat.mul_le_mul_left totalAmount hcap)
      _ = totalAmount := Nat.mul_div_cancel totalAmount (by omega)
  refine ⟨effectiveRevoraShareBps_eq config blockNumber investmentStartBlock profitAmount,
    effectiveRevoraShareBps_le config blockNumber investmentStartBlock profitAmount,
    rfl, rfl, Nat.sub_add_cancel hle, rfl⟩

/-- The concrete configuration of the spec's scenario: base share 1000
bps, performance bonus 500 bps at threshold 50000, no time bonus. -/
def c2Config : TrancheConfig :=
  { revoraShareBps := 1000
    minInvestmentPeriodDays := 0
    timeBasedBonusBps := 0
    performanceThreshold := 50000
    performanceBonusBps := 500
    claimPeriodDays := 30
    isConfigured := true }

/-- A distributor state with `c2Config` installed for every tranche. -/
def c2State : RevDState :=
  { owner := 1
    revoraTokenSet := false
    revoraTreasury := 2
    distributionCount := 0
    distributions := fun _ => emptyDistribution
    trancheConfigs := fun _ => c2Config
    hasClaimed := fun _ _ => false
    authorizedConfigurers := fun _ => false }

/-- Witness for C2: base 1000 bps plus a 500 bps performance bonus
(threshold 50000, profit 60000) on `totalAmount` 10000 yields
`secondaryAmount` 1500 and `trancheAmount` 8500. -/
theorem c2_createDistribution_split_witness :
    ∃ s' distributionId treasuryPayout,
      createDistribution c2State 1 7 8 10000 60000 0 100 1000 100000 0
        = Except.ok (s', distributionId, treasuryPayout) ∧
      (s'.distributions distributionId).revoraAmount = 1500 ∧
      (s'.distributions distributionId).trancheAmount = 8500 ∧
      (s'.distributions distributionId).trancheAmount +
        (s'.distributions distributionId).revoraAmount = 10000 := by
  obtain ⟨s', did, payout, heq, hp⟩ :=
    c2_createDistribution_split c2State 1 7 8 10000 60000 0 100 1000 100000 0
      rfl (by decide) (by decide) (by decide) rfl
  dsimp only at hp
  obtain ⟨-, -, h3, h4, h5, -⟩ := hp
  refine ⟨s', did, payout, heq, ?_, ?_, h5⟩
  · rw [h3]
    decide
  · rw [h4, h3]
    decide

/-! ### Lemmas about the token update hook -/

/-- A mint (`from = address(0)`) never reverts: the frozen-transfer guard
and the balance check do not apply. -/
theorem tokenUpdate_mint_ok (s : TrancheState) (toAddr amount : Nat) :
    ∃ s', tokenUpdate s 0 toAddr amount = Except.ok s' := by
  unfold tokenUpdate
  rw [if_neg (by simp), if_neg (by simp)]
  exact ⟨_, rfl⟩

/-- `_update` only touches the ERC20/ERC20Votes bookkeeping: every
tranche-lifecycle scalar field is unchanged. -/
theorem tokenUpdate_scalar_fields (s s' : TrancheState) (fromAddr toAddr amount : Nat)
    (h : tokenUpdate s fromAddr toAddr amount = Except.ok s') :
    s'.owner = s.owner ∧ s'.fundingGoal = s.fundingGoal ∧
    s'.pricePerToken = s.pricePerToken ∧ s'.fundingActive = s.fundingActive ∧
    s'.fundingComplete = s.fundingComplete ∧ s'.totalRaised = s.totalRaised ∧
    s'.trancheStatus = s.trancheStatus ∧ s'.refundPool = s.refundPool ∧
    s'.refundSnapshotSupply = s.refundSnapshotSupply ∧
    s'.hasClaimedRefund = s.hasClaimedRefund ∧
    s'.totalRefundsClaimed = s.totalRefundsClaimed := by
  unfold tokenUpdate at h
  split at h
  · exact absurd h (by simp)
  · split at h
    · exact absurd h (by simp)
    · simp only [Except.ok.injEq] at h
      subst h
      split_ifs <;> simp_all

/-! ### C3 -/

/-- What a successful `invest` does: the accepted amount is
`min(paymentAmount, fundingGoal - totalRaised)` (the partial-fill cap),
the units minted are `accepted * 10^18 / pricePerToken`, `totalRaised`
grows by exactly the accepted amount, the immutable economics are
unchanged, and completion is recorded exactly when the goal is reached. -/
theorem invest_ok_spec (s : TrancheState) (sender paymentAmount : Nat)
    (s' : TrancheState) (accepted minted : Nat)
    (h : invest s sender paymentAmount = Except.ok (s', accepted, minted)) :
    accepted = min paymentAmount (s.fundingGoal - s.totalRaised) ∧
    minted = accepted * 10 ^ 18 / s.pricePerToken ∧
    s'.totalRaised = s.totalRaised + accepted ∧
    s'.fundingGoal = s.fundingGoal ∧
    s'.pricePerToken = s.pricePerToken ∧
    s'.owner = s.owner ∧
    (s'.fundingComplete = true ↔ s.fundingGoal ≤ s'.totalRaised) := by
  unfold invest at h
  dsimp only at h
  split at h
  · exact absurd h (by simp)
  split at h
  · exact absurd h (by simp)
  split at h
  · exact absurd h (by simp)
  split at h
  · exact absurd h (by simp)
  split at h
  · exact absurd h (by simp)
  rename_i hactive hcomplete hpos howner hrem
  have hAmin : (if paymentAmount > s.fundingGoal - s.totalRaised then
      s.fundingGoal - s.totalRaised else paymentAmount)
      = min paymentAmount (s.fundingGoal - s.totalRaised) := by
    split <;> omega
  rw [hAmin] at h
  split at h
  · exact absurd h (by simp)
  rename_i hmint0
  split at h
  · rename_i e heq
    obtain ⟨sm, hsm⟩ := tokenUpdate_mint_ok s sender
      (min paymentAmount (s.fundingGoal - s.totalRaised) * 10 ^ 18 / s.pricePerToken)
    rw [hsm] at heq
    exact absurd heq (by simp)
  rename_i sm hsm
  obtain ⟨hown, hgoal, hprice, hact, hcompl, hraised, -⟩ :=
    tokenUpdate_scalar_fields s sm 0 sender _ hsm
  split at h
  · rename_i hge
    simp only [Except.ok.injEq, Prod.mk.injEq] at h
    obtain ⟨hs', hacc, hminted⟩ := h
    subst hs'
    subst hacc
    subst hminted
    refine ⟨rfl, rfl, by simp [hraised], by simp [hgoal], by simp [hprice],
      by simp [hown], ?_⟩
    show true = true ↔
      s.fundingGoal ≤ sm.totalRaised + min paymentAmount (s.fundingGoal - s.totalRaised)
    rw [hraised, hgoal] at hge
    rw [hraised]
    exact iff_of_true rfl (by omega)
  · rename_i hlt
    simp only [Except.ok.injEq, Prod.mk.injEq] at h
    obtain ⟨hs', hacc, hminted⟩ := h
    subst hs'
    subst hacc
    subst hminted
    refine ⟨rfl, rfl, by simp [hraised], by simp [hgoal], by simp [hprice],
      by simp [hown], ?_⟩
    show sm.fundingComplete = true ↔
      s.fundingGoal ≤ sm.totalRaised + min paymentAmount (s.fundingGoal - s.totalRaised)
    rw [hcompl, hraised]
    rw [hraised, hgoal] at hlt
    exact iff_of_false hcomplete (by omega)

/-- A successful `invest` preserves `totalRaised ≤ fundingGoal`. -/
theorem invest_preserves_cap (s : TrancheState) (sender amt : Nat)
    (s' : TrancheState) (accepted minted : Nat)
    (hinv : s.totalRaised ≤ s.fundingGoal)
    (h : invest s sender amt = Except.ok (s', accepted, minted)) :
    s'.totalRaised ≤ s'.fundingGoal := by
  obtain ⟨hacc, -, hr, hg, -, -, -⟩ := invest_ok_spec s sender amt s' accepted minted h
  rw [hr, hg]
  omega

/-- Along any sequence of `invest` calls, `totalRaised` stays at or below
`fundingGoal`. -/
theorem investTrace_cap (calls : List (Nat × Nat)) : ∀ s : TrancheState,
    s.totalRaised ≤ s.fundingGoal →
    (investTrace s calls).totalRaised ≤ (investTrace s calls).fundingGoal := by
  induction calls with
  | nil =>
    intro s h
    simpa [investTrace] using h
  | cons c rest ih =>
    intro s h
    simp only [investTrace, List.foldl_cons]
    rcases hinv : invest s c.1 c.2 with e | x
    · exact ih s h
    · rcases x with ⟨s', acc, m⟩
      exact ih s' (invest_preserves_cap s c.1 c.2 s' acc m h hinv)

/-- C3: Over every sequence of `invest` calls, `totalRaised` never
exceeds `fundingGoal`; every successful call debits and credits exactly
`min(amount, fundingGoal - totalRaised_before)`, mints
`accepted * 10^18 / pricePerToken` units, and a call whose requested
amount would cross the goal is accepted for exactly
`fundingGoal - totalRaised_before`. -/
theorem c3_invest_funding_cap (s : TrancheState) (calls : List (Nat × Nat))
    (hinv : s.totalRaised ≤ s.fundingGoal) :
    ((investTrace s calls).totalRaised ≤ (investTrace s calls).fundingGoal) ∧
    (∀ sender amt s' accepted minted,
      invest s sender amt = Except.ok (s', accepted, minted) →
      accepted = min amt (s.fundingGoal - s.totalRaised) ∧
      minted = accepted * 10 ^ 18 / s.pricePerToken ∧
      s'.totalRaised = s.totalRaised + accepted ∧
      (s.fundingGoal - s.totalRaised ≤ amt →
        accepted = s.fundingGoal - s.totalRaised)) := by
  refine ⟨investTrace_cap calls s hinv, ?_⟩
  intro sender amt s' accepted minted h
  obtain ⟨hacc, hm, hr, -, -, -, -⟩ := invest_ok_spec s sender amt s' accepted minted h
  refine ⟨hacc, hm, hr, ?_⟩
  intro hcross
  omega

/-- Witness for C3: goal 100 at price `10^18`; investments of 60 then 50
stop at `totalRaised = 100`, and a single 150 request is accepted for
exactly the remaining 100. -/
theorem c3_invest_funding_cap_witness :
    (initTrancheState 100 (10 ^ 18) 1).totalRaised ≤
      (initTrancheState 100 (10 ^ 18) 1).fundingGoal ∧
    (investTrace (initTrancheState 100 (10 ^ 18) 1) [(2, 60), (3, 50)]).totalRaised ≤
      (investTrace (initTrancheState 100 (10 ^ 18) 1) [(2, 60), (3, 50)]).fundingGoal ∧
    (∃ s' accepted minted,
      invest (initTrancheState 100 (10 ^ 18) 1) 2 150 =
        Except.ok (s', accepted, minted) ∧ accepted = 100) := by
  have h := c3_invest_funding_cap (initTrancheState 100 (10 ^ 18) 1)
    [(2, 60), (3, 50)] (by decide)
  refine ⟨by decide, h.1, ?_⟩
  have hx : ∃ out, invest (initTrancheState 100 (10 ^ 18) 1) 2 150 = Except.ok out :=
    ⟨_, rfl⟩
  obtain ⟨⟨s', accepted, minted⟩, hout⟩ := hx
  refine ⟨s', accepted, minted, hout, ?_⟩
  have := (h.2 2 150 s' accepted minted hout).2.2.2 (by decide)
  simpa using this

/-! ### C6 -/

/-- A freshly constructed tranche: goal 100, price 1, owner 1. -/
def c6Init : TrancheState := initTrancheState 100 1 1

/-- The state after the owner calls `completeFunding()` on `c6Init`
without any investment. -/
def c6Bad : TrancheState := stepState c6Init (TrancheOp.completeOp 1)

/-- Counterexample to C6 as stated: `c6Bad` is reachable (constructor
followed by the owner's manual `completeFunding()`), has
`fundingComplete = true`, yet `totalRaised = 0 ≠ 100 = fundingGoal`.  The
"iff" over all reachable states fails because of the manual completion
override. -/
theorem c6_counterexample :
    TrancheReach c6Bad ∧ c6Bad.fundingComplete = true ∧
      c6Bad.totalRaised ≠ c6Bad.fundingGoal :=
  ⟨TrancheReach.step c6Init (TrancheOp.completeOp 1)
      (TrancheReach.init 100 1 1 (by decide) (by decide)),
    by decide, by decide⟩

/-- C6 (amended): through `invest`, `fundingComplete` becomes true
exactly when `totalRaised` reaches `fundingGoal` (manual
`completeFunding` can set it earlier); and once `fundingComplete` is
true, every `invest` call fails with `InvalidState`. -/
theorem c6_fundingComplete_amended (s : TrancheState) :
    (∀ sender amt s' accepted minted,
      s.totalRaised ≤ s.fundingGoal →
      invest s sender amt = Except.ok (s', accepted, minted) →
      (s'.fundingComplete = true ↔ s'.totalRaised = s'.fundingGoal)) ∧
    (s.fundingComplete = true →
      ∀ sender amt, invest s sender amt = Except.error Err.InvalidState) := by
  constructor
  · intro sender amt s' accepted minted hcap h
    obtain ⟨hacc, -, hr, hg, -, -, hiff⟩ := invest_ok_spec s sender amt s' accepted minted h
    have hcap' : s'.totalRaised ≤ s'.fundingGoal :=
      invest_preserves_cap s sender amt s' accepted minted hcap h
    constructor
    · intro hc
      have := hiff.mp hc
      rw [hg] at hcap' ⊢
      omega
    · intro he
      apply hiff.mpr
      rw [hg] at he
      omega
  · intro hc sender amt
    unfold invest
    by_cases ha : s.fundingActive
    · rw [if_neg (by simp [ha]), if_pos hc]
    · rw [if_pos (by simp [ha])]

/-- Witness for the amended C6: investing 100 into `c6Init` reaches the
goal and sets `fundingComplete`; on the manually completed `c6Bad`,
`invest` fails with `InvalidState`. -/
theorem c6_fundingComplete_amended_witness :
    (∃ s' accepted minted,
      invest c6Init 2 100 = Except.ok (s', accepted, minted) ∧
      s'.fundingComplete = true ∧ s'.totalRaised = s'.fundingGoal) ∧
    invest c6Bad 2 5 = Except.error Err.InvalidState := by
  refine ⟨?_, (c6_fundingComplete_amended c6Bad).2 (by decide) 2 5⟩
  have hx : ∃ out, invest c6Init 2 100 = Except.ok out := ⟨_, rfl⟩
  obtain ⟨⟨s', accepted, minted⟩, hout⟩ := hx
  have hiff := (c6_fundingComplete_amended c6Init).1 2 100 s' accepted minted
    (by decide) hout
  obtain ⟨hacc, -, hr, hg, -, -, -⟩ := invest_ok_spec c6Init 2 100 s' accepted minted hout
  have h0 : c6Init.totalRaised = 0 := rfl
  have h100 : c6Init.fundingGoal = 100 := rfl
  have heq : s'.totalRaised = s'.fundingGoal := by
    rw [hr, hg]
    omega
  exact ⟨s', accepted, minted, hout, hiff.mpr heq, heq⟩

/-! ### C7 -/

/-- A freshly constructed tranche for the C7 scenario. -/
def c7Init : TrancheState := initTrancheState 100 1 1

/-- `c7Init` after the owner cancels it (allowed from `Active` with
funding incomplete). -/
def c7Bad : TrancheState := stepState c7Init (TrancheOp.markCancelOp 1)

/-- Counterexample to C7 as stated: `c7Bad` is reachable and has
`fundingComplete = false`, yet `markAsSuccessful` fails with
`AlreadyDone` ("Tranche already closed"), not `InvalidState`: the status
check precedes the funding-completeness check. -/
theorem c7_counterexample :
    TrancheReach c7Bad ∧ c7Bad.fundingComplete = false ∧
      markAsSuccessful c7Bad 1 = Except.error Err.AlreadyDone ∧
      markAsSuccessful c7Bad 1 ≠ Except.error Err.InvalidState :=
  ⟨TrancheReach.step c7Init (TrancheOp.markCancelOp 1)
      (TrancheReach.init 100 1 1 (by decide) (by decide)),
    by decide, rfl, fun hcon => by
      rw [show markAsSuccessful c7Bad 1 = Except.error Err.AlreadyDone from rfl] at hcon
      exact Err.noConfusion (Except.error.inj hcon)⟩

/-- C7 (amended): from status `Active`, `markAsSuccessful` with
`fundingComplete = false` fails with `InvalidState`; from any status
other than `Active` (in particular after either closure) both closure
transitions fail with `AlreadyDone`; a successful `markAsCancelled`
snapshots the total supply into `refundSnapshotSupply` and stops
funding. -/
theorem c7_closure_transitions (s : TrancheState) (sender : Nat) :
    (sender = s.owner → s.trancheStatus = TrancheStatus.Active →
      s.fundingComplete = false →
      markAsSuccessful s sender = Except.error Err.InvalidState) ∧
    (sender = s.owner → s.trancheStatus ≠ TrancheStatus.Active →
      markAsSuccessful s sender = Except.error Err.AlreadyDone ∧
      markAsCancelled s sender = Except.error Err.AlreadyDone) ∧
    (∀ s', markAsSuccessful s sender = Except.ok s' →
      s'.trancheStatus = TrancheStatus.ClosedSuccess ∧
      markAsSuccessful s' sender = Except.error Err.AlreadyDone ∧
      markAsCancelled s' sender = Except.error Err.AlreadyDone) ∧
    (∀ s', markAsCancelled s sender = Except.ok s' →
      s'.trancheStatus = TrancheStatus.ClosedCancelled ∧
      s'.refundSnapshotSupply = s.totalSupply ∧
      s'.fundingActive = false ∧
      markAsSuccessful s' sender = Except.error Err.AlreadyDone ∧
      markAsCancelled s' sender = Except.error Err.AlreadyDone) := by
  refine ⟨?_, ?_, ?_, ?_⟩
  · intro hs hst hc
    unfold markAsSuccessful
    rw [if_neg (by simp [hs]), if_neg (by simp [hst]), if_pos (by simp [hc])]
  · intro hs hst
    constructor
    · unfold markAsSuccessful
      rw [if_neg (by simp [hs]), if_pos hst]
    · unfold markAsCancelled
      rw [if_neg (by simp [hs]), if_pos hst]
  · intro s' h
    unfold markAsSuccessful at h
    split at h
    · exact absurd h (by simp)
    split at h
    · exact absurd h (by simp)
    split at h
    · exact absurd h (by simp)
    rename_i hown hst hcomp
    simp only [Except.ok.injEq] at h
    subst h
    have hsEq : sender = s.owner := not_not.mp hown
    refine ⟨rfl, ?_, ?_⟩
    · simp [markAsSuccessful, hsEq]
    · simp [markAsCancelled, hsEq]
  · intro s' h
    unfold markAsCancelled at h
    split at h
    · exact absurd h (by simp)
    split at h
    · exact absurd h (by simp)
    rename_i hown hst
    simp only [Except.ok.injEq] at h
    subst h
    have hsEq : sender = s.owner := not_not.mp hown
    refine ⟨rfl, rfl, rfl, ?_, ?_⟩
    · simp [markAsSuccessful, hsEq]
    · simp [markAsCancelled, hsEq]

/-- Witness for the amended C7 on concrete states: on a fresh active
incomplete tranche `markAsSuccessful` fails with `InvalidState`;
cancelling snapshots the supply and makes both closure transitions fail
with `AlreadyDone` afterwards. -/
theorem c7_closure_transitions_witness :
    markAsSuccessful c7Init 1 = Except.error Err.InvalidState ∧
    (∃ s', markAsCancelled c7Init 1 = Except.ok s' ∧
      s'.trancheStatus = TrancheStatus.ClosedCancelled ∧
      s'.refundSnapshotSupply = c7Init.totalSupply ∧
      s'.fundingActive = false ∧
      markAsSuccessful s' 1 = Except.error Err.AlreadyDone ∧
      markAsCancelled s' 1 = Except.error Err.AlreadyDone) := by
  have h := c7_closure_transitions c7Init 1
  refine ⟨h.1 rfl rfl rfl, ?_⟩
  have hx : ∃ out, markAsCancelled c7Init 1 = Except.ok out := ⟨_, rfl⟩
  obtain ⟨s', hout⟩ := hx
  obtain ⟨h1, h2, h3, h4, h5⟩ := h.2.2.2 s' hout
  exact ⟨s', hout, h1, h2, h3, h4, h5⟩

/-! ### C5 -/

/-- A burn (`to = address(0)`) of at most the holder's balance succeeds
in every tranche status and zeroes out the burnt part of the balance. -/
theorem tokenUpdate_burn_ok (s : TrancheState) (fromAddr amount : Nat)
    (hf : fromAddr ≠ 0) (hbal : amount ≤ s.balances fromAddr) :
    ∃ s', tokenUpdate s fromAddr 0 amount = Except.ok s' ∧
      s'.balances fromAddr = s.balances fromAddr - amount := by
  unfold tokenUpdate
  rw [if_neg (by simp), if_neg (by rintro ⟨-, hlt⟩; omega)]
  refine ⟨_, rfl, ?_⟩
  simp [upd, hf]

/-- C5: On a cancelled tranche with positive refund pool `P` and positive
snapshot supply `S`, a holder (a nonzero address) with balance `b > 0`
who has not claimed receives exactly `b * P / S` (floor division) from
`claimRefund`, which marks the holder claimed and burns the full
ownership balance; and `claimRefund` fails with `AlreadyClaimed` /
`NoPool` / `NoBalance` / `RefundTooSmall` in the respective guard
situations. -/
theorem c5_claimRefund_spec (s : TrancheState) (sender : Nat) :
    (s.trancheStatus = TrancheStatus.ClosedCancelled →
     s.hasClaimedRefund sender = false →
     0 < s.refundPool →
     0 < s.balances sender →
     0 < s.refundSnapshotSupply →
     sender ≠ 0 →
     0 < s.balances sender * s.refundPool / s.refundSnapshotSupply →
     ∃ s', claimRefund s sender =
        Except.ok (s', s.balances sender * s.refundPool / s.refundSnapshotSupply) ∧
        s'.hasClaimedRefund sender = true ∧
        s'.balances sender = 0 ∧
        s'.totalRefundsClaimed = s.totalRefundsClaimed +
          s.balances sender * s.refundPool / s.refundSnapshotSupply) ∧
    (s.trancheStatus = TrancheStatus.ClosedCancelled →
     s.hasClaimedRefund sender = true →
     claimRefund s sender = Except.error Err.AlreadyClaimed) ∧
    (s.trancheStatus = TrancheStatus.ClosedCancelled →
     s.hasClaimedRefund sender = false →
     s.refundPool = 0 →
     claimRefund s sender = Except.error Err.NoPool) ∧
    (s.trancheStatus = TrancheStatus.ClosedCancelled →
     s.hasClaimedRefund sender = false →
     0 < s.refundPool →
     s.balances sender = 0 →
     claimRefund s sender = Except.error Err.NoBalance) ∧
    (s.trancheStatus = TrancheStatus.ClosedCancelled →
     s.hasClaimedRefund sender = false →
     0 < s.refundPool →
     0 < s.balances sender →
     0 < s.refundSnapshotSupply →
     s.balances sender * s.refundPool / s.refundSnapshotSupply = 0 →
     claimRefund s sender = Except.error Err.RefundTooSmall) := by
  refine ⟨?_, ?_, ?_, ?_, ?_⟩
  · intro hstat hcl hpool hbal hsnap hs0 hpos
    unfold claimRefund
    rw [if_neg (by simp [hstat]), if_neg (by simp [hcl]), if_neg (by omega)]
    dsimp only
    rw [if_neg (by omega), if_neg (by omega), if_neg (by omega)]
    obtain ⟨sb, hsb, hsbal⟩ := tokenUpdate_burn_ok
      { s with
        hasClaimedRefund := upd s.hasClaimedRefund sender true
        totalRefundsClaimed := s.totalRefundsClaimed +
          s.balances sender * s.refundPool / s.refundSnapshotSupply }
      sender (s.balances sender) hs0 (Nat.le_refl _)
    rw [hsb]
    obtain ⟨-, -, -, -, -, -, -, -, -, hclm, htot⟩ :=
      tokenUpdate_scalar_fields _ sb sender 0 (s.balances sender) hsb
    refine ⟨sb, rfl, ?_, ?_, ?_⟩
    · rw [hclm]
      simp [upd]
    · rw [hsbal]
      simp
    · rw [htot]
  · intro hstat hcl
    unfold claimRefund
    rw [if_neg (by simp [hstat]), if_pos (by simp [hcl])]
  · intro hstat hcl hpool
    unfold claimRefund
    rw [if_neg (by simp [hstat]), if_neg (by simp [hcl]), if_pos hpool]
  · intro hstat hcl hpool hbal
    unfold claimRefund
    rw [if_neg (by simp [hstat]), if_neg (by simp [hcl]), if_neg (by omega)]
    dsimp only
    rw [if_pos hbal]
  · intro hstat hcl hpool hbal hsnap hzero
    unfold claimRefund
    rw [if_neg (by simp [hstat]), if_neg (by simp [hcl]), if_neg (by omega)]
    dsimp only
    rw [if_neg (by omega), if_neg (by omega), if_pos hzero]

/-- A cancelled tranche with one investor (address 5) holding 50000
units, snapshot supply 50000 and a 50000 refund pool (the spec's
cancellation scenario, stated in payment-token units). -/
def c5State : TrancheState :=
  { owner := 1
    fundingGoal := 100000
    pricePerToken := 10 ^ 18
    fundingActive := false
    fundingComplete := false
    totalRaised := 50000
    trancheStatus := TrancheStatus.ClosedCancelled
    refundPool := 50000
    refundSnapshotSupply := 50000
    hasClaimedRefund := fun _ => false
    totalRefundsClaimed := 0
    balances := fun a => if a = 5 then 50000 else 0
    totalSupply := 50000
    delegatee := fun a => if a = 5 then 5 else 0
    votes := fun a => if a = 5 then 50000 else 0 }

/-- Witness for C5: the single claimant of `c5State` receives exactly
50000 and ends with balance 0 and the claimed flag set. -/
theorem c5_claimRefund_spec_witness :
    ∃ s', claimRefund c5State 5 = Except.ok (s', 50000) ∧
      s'.hasClaimedRefund 5 = true ∧ s'.balances 5 = 0 := by
  obtain ⟨s', heq, h1, h2, h3⟩ := (c5_claimRefund_spec c5State 5).1 rfl rfl
    (by decide) (by decide) (by decide) (by decide) (by decide)
  refine ⟨s', ?_, h1, h2⟩
  rw [heq, show c5State.balances 5 * c5State.refundPool / c5State.refundSnapshotSupply
    = 50000 from by decide]

/-! ### C9 -/

/-- C9: A peer-to-peer transfer (nonzero source and destination) never
succeeds while the tranche status is not `Active` — it reverts with the
frozen-transfers error; mints (source empty) succeed in every status, and
burns (destination empty) succeed in every status whenever the source
holds the burnt amount, so refund burns work while transfers are
frozen. -/
theorem c9_transfer_freeze (s : TrancheState) (fromAddr toAddr amount : Nat) :
    (s.trancheStatus ≠ TrancheStatus.Active → fromAddr ≠ 0 → toAddr ≠ 0 →
      tokenUpdate s fromAddr toAddr amount = Except.error Err.TransfersFrozen) ∧
    (fromAddr = 0 → ∃ s', tokenUpdate s fromAddr toAddr amount = Except.ok s') ∧
    (toAddr = 0 → fromAddr ≠ 0 → amount ≤ s.balances fromAddr →
      ∃ s', tokenUpdate s fromAddr toAddr amount = Except.ok s') := by
  refine ⟨?_, ?_, ?_⟩
  · intro hstat hf ht
    unfold tokenUpdate
    rw [if_pos ⟨hf, ht, hstat⟩]
  · intro hf
    subst hf
    exact tokenUpdate_mint_ok s toAddr amount
  · intro ht hf hbal
    subst ht
    obtain ⟨s', hs', -⟩ := tokenUpdate_burn_ok s fromAddr amount hf hbal
    exact ⟨s', hs'⟩

/-- Witness for C9 on the cancelled tranche `c5State`: the transfer
5 → 6 reverts as frozen while the mint 0 → 6 and the burn 5 → 0 both
succeed. -/
theorem c9_transfer_freeze_witness :
    tokenUpdate c5State 5 6 10 = Except.error Err.TransfersFrozen ∧
    (∃ s', tokenUpdate c5State 0 6 10 = Except.ok s') ∧
    (∃ s', tokenUpdate c5State 5 0 10 = Except.ok s') :=
  ⟨(c9_transfer_freeze c5State 5 6 10).1 (by decide) (by decide) (by decide),
   (c9_transfer_freeze c5State 0 6 10).2.1 rfl,
   (c9_transfer_freeze c5State 5 0 10).2.2 rfl (by decide) (by decide)⟩

/-! ### C4 -/

/-- C4: After a successful `claim`, the caller's claimed flag is set, and
the body's effect order puts the claimed-flag write (and the
`totalClaimed` increment) before the external payout transfer; any second
claim attempt by the same caller on the same distribution fails with
`AlreadyClaimed`, changes no state, and performs no transfer. -/
theorem c4_claim_idempotent (s : RevDState)
    (sender distributionId timestampNow userTrancheBalance userRevoraBalance : Nat)
    (s' : RevDState) (amount : Nat) (actions : List ClaimAction)
    (h : claim s sender distributionId timestampNow userTrancheBalance
      userRevoraBalance = Except.ok (s', amount, actions)) :
    s'.hasClaimed distributionId sender = true ∧
    actions = [ClaimAction.markClaimed distributionId sender,
      ClaimAction.addTotalClaimed distributionId amount,
      ClaimAction.payout (s.distributions distributionId).paymentToken sender amount] ∧
    (∃ i j, i < j ∧
      actions.get? i = some (ClaimAction.markClaimed distributionId sender) ∧
      actions.get? j = some (ClaimAction.payout
        (s.distributions distributionId).paymentToken sender amount)) ∧
    (∀ ts' b1 b2,
      claim s' sender distributionId ts' b1 b2 = Except.error Err.AlreadyClaimed ∧
      claimRun s' sender distributionId ts' b1 b2 = s' ∧
      claimTransfers s' sender distributionId ts' b1 b2 = []) := by
  unfold claim at h
  dsimp only at h
  split at h
  · exact absurd h (by simp)
  split at h
  · exact absurd h (by simp)
  split at h
  · exact absurd h (by simp)
  split at h
  · exact absurd h (by simp)
  rename_i hid hcl hdl hnz
  simp only [Except.ok.injEq, Prod.mk.injEq] at h
  obtain ⟨hs', hamt, hact⟩ := h
  subst hs'
  subst hamt
  subst hact
  refine ⟨by simp, rfl, ⟨0, 2, by omega, rfl, rfl⟩, ?_⟩
  intro ts' b1 b2
  refine ⟨?_, ?_, ?_⟩
  · unfold claim
    rw [if_neg (by simpa using hid), if_pos (by simp)]
  · unfold claimRun claim
    rw [if_neg (by simpa using hid), if_pos (by simp)]
  · unfold claimTransfers claim
    rw [if_neg (by simpa using hid), if_pos (by simp)]

/-- Witness for C4: holder 5 claims 45 from distribution 0 of `c1State`;
afterwards every further claim attempt fails with `AlreadyClaimed`. -/
theorem c4_claim_idempotent_witness :
    ∃ out, claim c1State 5 0 10 50 0 = Except.ok out ∧
      out.1.hasClaimed 0 5 = true ∧
      (∀ ts' b1 b2, claim out.1 5 0 ts' b1 b2 = Except.error Err.AlreadyClaimed) := by
  have hx : ∃ out, claim c1State 5 0 10 50 0 = Except.ok out := ⟨_, rfl⟩
  obtain ⟨⟨s', amount, actions⟩, hout⟩ := hx
  obtain ⟨h1, -, -, h4⟩ := c4_claim_idempotent c1State 5 0 10 50 0 s' amount actions hout
  exact ⟨(s', amount, actions), hout, h1, fun ts' b1 b2 => (h4 ts' b1 b2).1⟩

/-! ### C8 -/

/-- C8: `withdrawUnclaimedFunds` succeeds only for the owner and only
strictly after the claim deadline; it transfers exactly `totalAmount -
totalClaimed` to the treasury and sets `totalClaimed = totalAmount`;
afterwards no claim on that distribution can succeed at any time at or
after the withdrawal (the deadline has passed for good). -/
theorem c8_withdraw_unclaimed (s : RevDState)
    (sender distributionId timestampNow : Nat) (s' : RevDState) (amount : Nat)
    (h : withdrawUnclaimedFunds s sender distributionId timestampNow
      = Except.ok (s', amount)) :
    sender = s.owner ∧
    (s.distributions distributionId).claimDeadline < timestampNow ∧
    amount = (s.distributions distributionId).totalAmount -
      (s.distributions distributionId).totalClaimed ∧
    (s'.distributions distributionId).totalClaimed =
      (s.distributions distributionId).totalAmount ∧
    (∀ user ts' b1 b2, timestampNow ≤ ts' →
      ∀ out, claim s' user distributionId ts' b1 b2 ≠ Except.ok out) := by
  unfold withdrawUnclaimedFunds at h
  dsimp only at h
  split at h
  · exact absurd h (by simp)
  split at h
  · exact absurd h (by simp)
  split at h
  · exact absurd h (by simp)
  split at h
  · exact absurd h (by simp)
  rename_i hown hid hdl hnz
  simp only [Except.ok.injEq, Prod.mk.injEq] at h
  obtain ⟨hs', hamt⟩ := h
  subst hs'
  subst hamt
  refine ⟨not_not.mp hown, by omega, rfl, by simp [upd], ?_⟩
  intro user ts' b1 b2 hts out
  unfold claim
  rw [if_neg (by simpa using hid)]
  by_cases hcl : s.hasClaimed distributionId user
  · rw [if_pos (by simpa using hcl)]
    simp
  · rw [if_neg (by simpa using hcl), if_pos (by simp [upd]; omega)]
    simp

/-- A distributor state for the C8 witness: distribution 0 fully set up,
45 of 100 claimed, deadline 1000. -/
def c8State : RevDState :=
  { owner := 1
    revoraTokenSet := false
    revoraTreasury := 2
    distributionCount := 1
    distributions := fun _ =>
      { c1Dist with totalClaimed := 45 }
    trancheConfigs := fun _ => emptyConfig
    hasClaimed := fun _ u => u = 5
    authorizedConfigurers := fun _ => false }

/-- Witness for C8: at time 2000 (past the deadline 1000) the owner
withdraws the unclaimed 55; `totalClaimed` becomes 100 and no claim can
succeed afterwards. -/
theorem c8_withdraw_unclaimed_witness :
    ∃ s' amount, withdrawUnclaimedFunds c8State 1 0 2000 = Except.ok (s', amount) ∧
      amount = 55 ∧
      (s'.distributions 0).totalClaimed = 100 ∧
      (∀ out, claim s' 6 0 2000 40 0 ≠ Except.ok out) := by
  have hx : ∃ out, withdrawUnclaimedFunds c8State 1 0 2000 = Except.ok out := ⟨_, rfl⟩
  obtain ⟨⟨s', amount⟩, hout⟩ := hx
  obtain ⟨-, -, h3, h4, h5⟩ := c8_withdraw_unclaimed c8State 1 0 2000 s' amount hout
  refine ⟨s', amount, hout, ?_, ?_, fun out => h5 6 2000 40 0 (by omega) out⟩
  · rw [h3]
    decide
  · rw [h4]
    decide

/-! ### C10 -/

/-- Pointwise evaluation of `upd`. -/
theorem upd_apply {α : Type} (f : Nat → α) (k : Nat) (v : α) (x : Nat) :
    upd f k v x = if x = k then v else f x := rfl

/-- Pointwise evaluation of `_moveDelegateVotes` (using that in the
moving branch `src ≠ dst`, so a point is touched as source or as
destination but never as both). -/
theorem moveDelegateVotes_apply (votes : Nat → Nat) (src dst amount x : Nat) :
    moveDelegateVotes votes src dst amount x =
      if src = dst ∨ amount = 0 then votes x
      else if x = dst ∧ dst ≠ 0 then votes x + amount
      else if x = src ∧ src ≠ 0 then votes x - amount
      else votes x := by
  unfold moveDelegateVotes upd
  simp only [ite_apply]
  split_ifs <;> simp_all

/-- The no-manual-delegation invariant maintained by the auto-delegation
hook: the zero address has no delegate, and every holder either has no
delegate yet (and then no balance and no tracked votes) or is delegated
to itself with tracked votes equal to its token balance. -/
def SelfDelegated (s : TrancheState) : Prop :=
  s.delegatee 0 = 0 ∧
  ∀ h : Nat, h ≠ 0 →
    (s.delegatee h = 0 ∧ s.balances h = 0 ∧ s.votes h = 0) ∨
    (s.delegatee h = h ∧ s.votes h = s.balances h)

set_option maxHeartbeats 2000000 in
/-- C10: The token-update hook preserves the no-manual-delegation
invariant `SelfDelegated`, and after every successful update with a
nonzero receiver (a mint via `invest`, or a transfer) the receiver is
delegated to itself and its tracked voting balance equals its token
balance, so the checkpointed voting balance consulted by the snapshot
queries needs no manual delegation step. -/
theorem c10_auto_delegation (s s' : TrancheState) (fromAddr toAddr amount : Nat)
    (hI : SelfDelegated s)
    (h : tokenUpdate s fromAddr toAddr amount = Except.ok s') :
    SelfDelegated s' ∧
    (toAddr ≠ 0 → s'.delegatee toAddr = toAddr ∧
      s'.votes toAddr = s'.balances toAddr) := by
  obtain ⟨hd0, hIh⟩ := hI
  unfold tokenUpdate at h
  split at h
  · exact absurd h (by simp)
  split at h
  · exact absurd h (by simp)
  rename_i hfrozen hbal
  dsimp only at h
  by_cases hf : fromAddr = 0
  · subst hf
    by_cases ht : toAddr = 0
    · subst ht
      simp at h
      subst h
      refine ⟨⟨hd0, ?_⟩, fun hcon => absurd rfl hcon⟩
      intro x hx
      rcases hIh x hx with ⟨h1, h2, h3⟩ | ⟨h1, h2⟩
      · left
        exact ⟨h1, h2, by simp [moveDelegateVotes_apply, h3]⟩
      · right
        exact ⟨h1, by simp [moveDelegateVotes_apply, h2]⟩
    · by_cases hdt : s.delegatee toAddr = 0
      · simp [ht, hdt, hd0] at h
        subst h
        obtain ⟨-, hbt, hvt⟩ | ⟨hdt2, -⟩ := hIh toAddr ht
        swap
        · rw [hdt] at hdt2
          exact absurd hdt2.symm ht
        refine ⟨⟨?_, ?_⟩, fun _ => ⟨?_, ?_⟩⟩
        · simp [upd_apply, Ne.symm ht, hd0]
        · intro x hx
          by_cases hxt : x = toAddr
          · subst hxt
            right
            constructor
            · simp [upd_apply]
            · simp only [moveDelegateVotes_apply, upd_apply]
              split_ifs <;> first | omega | simp_all | (exfalso; simp_all)
          · rcases hIh x hx with ⟨h1, h2, h3⟩ | ⟨h1, h2⟩
            · left
              refine ⟨by simp [upd_apply, hxt, h1], by simp [upd_apply, hxt, h2], ?_⟩
              simp only [moveDelegateVotes_apply, upd_apply]
              split_ifs <;> first | omega | simp_all | (exfalso; simp_all)
            · right
              refine ⟨by simp [upd_apply, hxt, h1], ?_⟩
              simp only [moveDelegateVotes_apply, upd_apply]
              split_ifs <;> first | omega | simp_all | (exfalso; simp_all)
        · simp [upd_apply]
        · simp only [moveDelegateVotes_apply, upd_apply]
          split_ifs <;> first | omega | simp_all | (exfalso; simp_all)
      · simp [ht, hdt, hd0] at h
        subst h
        obtain ⟨hdt2, -, -⟩ | ⟨hdt2, hvt⟩ := hIh toAddr ht
        · exact absurd hdt2 hdt
        refine ⟨⟨?_, ?_⟩, fun _ => ⟨?_, ?_⟩⟩
        · simp [hd0]
        · intro x hx
          by_cases hxt : x = toAddr
          · subst hxt
            right
            refine ⟨hdt2, ?_⟩
            simp only [moveDelegateVotes_apply, upd_apply, hdt2]
            split_ifs <;> first | omega | simp_all | (exfalso; simp_all)
          · rcases hIh x hx with ⟨h1, h2, h3⟩ | ⟨h1, h2⟩
            · left
              refine ⟨h1, by simp [upd_apply, hxt, h2], ?_⟩
              simp only [moveDelegateVotes_apply, upd_apply, hdt2]
              split_ifs <;> first | omega | simp_all | (exfalso; simp_all)
            · right
              refine ⟨h1, ?_⟩
              simp only [moveDelegateVotes_apply, upd_apply, hdt2]
              split_ifs <;> first | omega | simp_all | (exfalso; simp_all)
        · exact hdt2
        · simp only [moveDelegateVotes_apply, upd_apply, hdt2]
          split_ifs <;> first | omega | simp_all | (exfalso; simp_all)
  · have hble : amount ≤ s.balances fromAddr := by omega
    by_cases ht : toAddr = 0
    · subst ht
      simp [hf, hd0] at h
      subst h
      rcases hIh fromAddr hf with ⟨h1, h2, h3⟩ | ⟨h1, h2⟩
      · refine ⟨⟨by simp [hd0], ?_⟩, fun hcon => absurd rfl hcon⟩
        intro x hx
        by_cases hxf : x = fromAddr
        · subst hxf
          left
          refine ⟨h1, by simp [upd_apply]; omega, ?_⟩
          simp only [moveDelegateVotes_apply, upd_apply, h1]
          split_ifs <;> first | omega | simp_all | (exfalso; simp_all)
        · rcases hIh x hx with ⟨g1, g2, g3⟩ | ⟨g1, g2⟩
          · left
            refine ⟨g1, by simp [upd_apply, hxf, g2], ?_⟩
            simp only [moveDelegateVotes_apply, upd_apply, h1]
            split_ifs <;> first | omega | simp_all | (exfalso; simp_all)
          · right
            refine ⟨g1, ?_⟩
            simp only [moveDelegateVotes_apply, upd_apply, h1]
            split_ifs <;> first | omega | simp_all | (exfalso; simp_all)
      · refine ⟨⟨by simp [hd0], ?_⟩, fun hcon => absurd rfl hcon⟩
        intro x hx
        by_cases hxf : x = fromAddr
        · subst hxf
          right
          refine ⟨h1, ?_⟩
          simp only [moveDelegateVotes_apply, upd_apply, h1]
          split_ifs <;> first | omega | simp_all | (exfalso; simp_all)
        · rcases hIh x hx with ⟨g1, g2, g3⟩ | ⟨g1, g2⟩
          · left
            refine ⟨g1, by simp [upd_apply, hxf, g2], ?_⟩
            simp only [moveDelegateVotes_apply, upd_apply, h1]
            split_ifs <;> first | omega | simp_all | (exfalso; simp_all)
          · right
            refine ⟨g1, ?_⟩
            simp only [moveDelegateVotes_apply, upd_apply, h1]
            split_ifs <;> first | omega | simp_all | (exfalso; simp_all)
    · by_cases hdt : s.delegatee toAddr = 0
      · simp [hf, ht, hdt, hd0] at h
        subst h
        obtain ⟨-, hbt, hvt⟩ | ⟨hdt2, -⟩ := hIh toAddr ht
        swap
        · rw [hdt] at hdt2
          exact absurd hdt2.symm ht
        rcases hIh fromAddr hf with ⟨h1, h2, h3⟩ | ⟨h1, h2⟩ <;>
          refine ⟨⟨by simp [upd_apply, Ne.symm ht, hd0], ?_⟩, fun _ => ⟨by simp [upd_apply], ?_⟩⟩
        · intro x hx
          by_cases hxt : x = toAddr
          · subst hxt
            right
            refine ⟨by simp [upd_apply], ?_⟩
            simp only [moveDelegateVotes_apply, upd_apply, h1]
            split_ifs <;> first | omega | simp_all | (exfalso; simp_all)
          · by_cases hxf : x = fromAddr
            · subst hxf
              left
              refine ⟨by simp [upd_apply, hxt, h1], by simp [upd_apply, hxt]; omega, ?_⟩
              simp only [moveDelegateVotes_apply, upd_apply, h1]
              split_ifs <;> first | omega | simp_all | (exfalso; simp_all)
            · rcases hIh x hx with ⟨g1, g2, g3⟩ | ⟨g1, g2⟩
              · left
                refine ⟨by simp [upd_apply, hxt, g1], by simp [upd_apply, hxt, hxf, g2], ?_⟩
                simp only [moveDelegateVotes_apply, upd_apply, h1]
                split_ifs <;> first | omega | simp_all | (exfalso; simp_all)
              · right
                refine ⟨by simp [upd_apply, hxt, g1], ?_⟩
                simp only [moveDelegateVotes_apply, upd_apply, h1]
                split_ifs <;> first | omega | simp_all | (exfalso; simp_all)
        · simp only [moveDelegateVotes_apply, upd_apply, h1]
          split_ifs <;> first | omega | simp_all | (exfalso; simp_all)
        · intro x hx
          by_cases hxt : x = toAddr
          · subst hxt
            right
            refine ⟨by simp [upd_apply], ?_⟩
            simp only [moveDelegateVotes_apply, upd_apply, h1]
            split_ifs <;> first | omega | simp_all | (exfalso; simp_all)
          · by_cases hxf : x = fromAddr
            · subst hxf
              right
              refine ⟨by simp [upd_apply, hxt, h1], ?_⟩
              simp only [moveDelegateVotes_apply, upd_apply, h1]
              split_ifs <;> first | omega | simp_all | (exfalso; simp_all)
            · rcases hIh x hx with ⟨g1, g2, g3⟩ | ⟨g1, g2⟩
              · left
                refine ⟨by simp [upd_apply, hxt, g1], by simp [upd_apply, hxt, hxf, g2], ?_⟩
                simp only [moveDelegateVotes_apply, upd_apply, h1]
                split_ifs <;> first | omega | simp_all | (exfalso; simp_all)
              · right
                refine ⟨by simp [upd_apply, hxt, g1], ?_⟩
                simp only [moveDelegateVotes_apply, upd_apply, h1]
                split_ifs <;> first | omega | simp_all | (exfalso; simp_all)
        · simp only [moveDelegateVotes_apply, upd_apply, h1]
          split_ifs <;> first | omega | simp_all | (exfalso; simp_all)
      · simp [hf, ht, hdt, hd0] at h
        subst h
        obtain ⟨hdt2, -, -⟩ | ⟨hdt2, hvt⟩ := hIh toAddr ht
        · exact absurd hdt2 hdt
        rcases hIh fromAddr hf with ⟨h1, h2, h3⟩ | ⟨h1, h2⟩ <;>
          refine ⟨⟨by simp [hd0], ?_⟩, fun _ => ⟨hdt2, ?_⟩⟩
        · intro x hx
          by_cases hxt : x = toAddr
          · subst hxt
            right
            refine ⟨hdt2, ?_⟩
            simp only [moveDelegateVotes_apply, upd_apply, h1, hdt2]
            split_ifs <;> first | omega | simp_all | (exfalso; simp_all)
          · by_cases hxf : x = fromAddr
            · subst hxf
              left
              refine ⟨h1, by simp [upd_apply, hxt]; omega, ?_⟩
              simp only [moveDelegateVotes_apply, upd_apply, h1, hdt2]
              split_ifs <;> first | omega | simp_all | (exfalso; simp_all)
            · rcases hIh x hx with ⟨g1, g2, g3⟩ | ⟨g1, g2⟩
              · left
                refine ⟨g1, by simp [upd_apply, hxt, hxf, g2], ?_⟩
                simp only [moveDelegateVotes_apply, upd_apply, h1, hdt2]
                split_ifs <;> first | omega | simp_all | (exfalso; simp_all)
              · right
                refine ⟨g1, ?_⟩
                simp only [moveDelegateVotes_apply, upd_apply, h1, hdt2]
                split_ifs <;> first | omega | simp_all | (exfalso; simp_all)
        · simp only [moveDelegateVotes_apply, upd_apply, h1, hdt2]
          split_ifs <;> first | omega | simp_all | (exfalso; simp_all)
        · intro x hx
          by_cases hxt : x = toAddr
          · subst hxt
            right
            refine ⟨hdt2, ?_⟩
            simp only [moveDelegateVotes_apply, upd_apply, h1, hdt2]
            split_ifs <;> first | omega | simp_all | (exfalso; simp_all)
          · by_cases hxf : x = fromAddr
            · subst hxf
              right
              refine ⟨h1, ?_⟩
              simp only [moveDelegateVotes_apply, upd_apply, h1, hdt2]
              split_ifs <;> first | omega | simp_all | (exfalso; simp_all)
            · rcases hIh x hx with ⟨g1, g2, g3⟩ | ⟨g1, g2⟩
              · left
                refine ⟨g1, by simp [upd_apply, hxt, hxf, g2], ?_⟩
                simp only [moveDelegateVotes_apply, upd_apply, h1, hdt2]
                split_ifs <;> first | omega | simp_all | (exfalso; simp_all)
              · right
                refine ⟨g1, ?_⟩
                simp only [moveDelegateVotes_apply, upd_apply, h1, hdt2]
                split_ifs <;> first | omega | simp_all | (exfalso; simp_all)
        · simp only [moveDelegateVotes_apply, upd_apply, h1, hdt2]
          split_ifs <;> first | omega | simp_all | (exfalso; simp_all)

/-- Witness for C10: minting 100 units to holder 5 of a fresh tranche
self-delegates holder 5 and tracks its full balance as votes. -/
theorem c10_auto_delegation_witness :
    ∃ s', tokenUpdate (initTrancheState 100 1 1) 0 5 100 = Except.ok s' ∧
      SelfDelegated s' ∧ s'.delegatee 5 = 5 ∧ s'.votes 5 = s'.balances 5 := by
  have hI : SelfDelegated (initTrancheState 100 1 1) :=
    ⟨rfl, fun h hh => Or.inl ⟨rfl, rfl, rfl⟩⟩
  have hx : ∃ s', tokenUpdate (initTrancheState 100 1 1) 0 5 100 = Except.ok s' :=
    ⟨_, rfl⟩
  obtain ⟨s', hs'⟩ := hx
  obtain ⟨hI2, hto⟩ := c10_auto_delegation (initTrancheState 100 1 1) s' 0 5 100 hI hs'
  obtain ⟨hd, hv⟩ := hto (by decide)
  exact ⟨s', hs', hI2, hd, hv⟩
